import Mathlib

/-
Verification of the BillGenerator backend (index.js) against its
natural-language specification.

The development shallowly embeds the two core request handlers:

  POST /api/bills          (the Bill Recorder / createBill)
  GET  /api/sales/summary  (the Sales Aggregator / getSalesSummary)

Relational rows are Lean structures, the database is lists of rows, SQL
aggregates are list folds (with SQL NULL modelled as Option), and the
transactional write path of createBill is an executor that produces the
final committed database, the HTTP status, the list of store operations
issued, and the sequence of reader-visible committed states.
-/

namespace BillGen

/-- Timestamp stored in created_at columns.  The SQL cast created_at::date
keeps only the date component and discards the time of day. -/
structure Timestamp where
  date : Int
  timeOfDay : Nat
deriving Repr, DecidableEq

/-- A row of the bills table (index.js: INSERT INTO bills, line 372). -/
structure Bill where
  id : Nat
  total_amount : Int
  total_mrp : Int
  total_savings : Int
  created_by : String
  created_at : Timestamp
deriving Repr, DecidableEq

/-- A row of the bill_items table (index.js: INSERT INTO bill_items, line 382). -/
structure BillItem where
  id : Nat
  bill_id : Nat
  product_id : Int
  name : String
  price : Int
  mrp : Int
  quantity : Int
deriving Repr, DecidableEq

/-- The committed database state: the two tables of the billing core plus
the sequence counters that generate fresh row ids. -/
structure DB where
  bills : List Bill
  bill_items : List BillItem
  nextBillId : Nat
  nextItemId : Nat
deriving Repr, DecidableEq

/-- The empty database. -/
def emptyDB : DB := ⟨[], [], 1, 1⟩

/- ===================================================================
   Date-range filter construction (index.js lines 584-598).

   The handler builds a list of SQL conditions of the form
     b.created_at::date >= $k      (when start is present)
     b.created_at::date <= $k      (when end is present)
   pushing the date values into queryParams.  Each condition is modelled
   by a Cond record: the optional table alias prefix, the comparison
   direction, and the 1-based index of its $k placeholder.
   =================================================================== -/

/-- Direction of a date comparison condition. -/
inductive DateCmp where
  | ge
  | le
deriving Repr, DecidableEq

/-- One conjunct of the WHERE clause, as built by the handler. -/
structure Cond where
  tableAlias : Option String
  cmp : DateCmp
  param : Nat
deriving Repr, DecidableEq

/-- Mirror of the conditions/queryParams construction (index.js 587-598):
starting from empty lists, push the start bound condition if present, then
the end bound condition if present, numbering placeholders by the current
length of the parameter list. -/
def buildFilter (startD endD : Option Int) : List Cond × List Int :=
  let acc0 : List Cond × List Int := ([], [])
  let acc1 :=
    match startD with
    | some s => (acc0.1 ++ [⟨some "b", DateCmp.ge, acc0.2.length + 1⟩], acc0.2 ++ [s])
    | none => acc0
  match endD with
  | some e => (acc1.1 ++ [⟨some "b", DateCmp.le, acc1.2.length + 1⟩], acc1.2 ++ [e])
  | none => acc1

/-- Evaluate one condition against a bill row: look up the placeholder
value and compare it with the date component of created_at.  The alias
does not affect the value: in both query contexts the column resolves to
the created_at column of the bills table. -/
def evalCond (params : List Int) (b : Bill) (c : Cond) : Bool :=
  match params.get? (c.param - 1) with
  | none => false
  | some v =>
    match c.cmp with
    | DateCmp.ge => decide (v ≤ b.created_at.date)
    | DateCmp.le => decide (b.created_at.date ≤ v)

/-- A bill row passes the WHERE clause when every conjunct holds. -/
def passesFilter (conds : List Cond) (params : List Int) (b : Bill) : Bool :=
  conds.all (evalCond params b)

/-- Drop the table-alias prefix of a condition.  This is the semantic
content of the textual replacement of every occurrence of the alias
prefix in the clause (index.js line 608). -/
def stripAlias (c : Cond) : Cond := { c with tableAlias := none }

/- ===================================================================
   String-level model of the alias stripping.

   The handler renders the conditions to a SQL text fragment and the
   bill-level totals query reuses that text after replacing every
   occurrence of the two characters b-dot by the empty string (the
   JavaScript global-regex replace on line 608).  Strings are modelled
   by their character lists; replaceAll replaces every occurrence of a
   pattern, scanning left to right, exactly like a global replace of a
   literal pattern.
   =================================================================== -/

/-- Fuelled left-to-right replace-all on character lists.  The fuel is an
upper bound on the number of characters still to scan. -/
def replaceAllAux : Nat → List Char → List Char → List Char → List Char
  | 0, _, _, _ => []
  | _ + 1, _, _, [] => []
  | fuel + 1, pat, rep, c :: rest =>
    if pat ≠ [] ∧ pat.isPrefixOf (c :: rest) then
      rep ++ replaceAllAux fuel pat rep ((c :: rest).drop pat.length)
    else
      c :: replaceAllAux fuel pat rep rest

/-- Replace every occurrence of pat in s by rep, scanning left to right. -/
def replaceAll (pat rep s : List Char) : List Char :=
  replaceAllAux s.length pat rep s

/-- Render one condition to its SQL text. -/
def renderCond (c : Cond) : String :=
  (match c.tableAlias with
   | some a => a ++ "."
   | none => "") ++
  "created_at::date " ++
  (match c.cmp with
   | DateCmp.ge => ">="
   | DateCmp.le => "<=") ++
  " $" ++ toString c.param

/-- Render the WHERE clause: empty when there are no conditions, otherwise
the keyword followed by the conjuncts joined with AND (index.js 597). -/
def renderWhere (conds : List Cond) : String :=
  match conds with
  | [] => ""
  | _ => " WHERE " ++ String.intercalate " AND " (conds.map renderCond)

/-- The textual alias stripping applied by the bill-level totals query
(index.js line 608): globally replace the alias prefix by nothing. -/
def stripWhereText (w : String) : String :=
  ⟨replaceAll ("b.".data) [] w.data⟩

/- ===================================================================
   The three aggregate queries of GET /api/sales/summary.
   =================================================================== -/

/-- SQL SUM over a list of non-null integer values: NULL (none) when
there are no rows, otherwise the sum. -/
def sqlSum (xs : List Int) : Option Int :=
  match xs with
  | [] => none
  | _ => some xs.sum

/-- Row set of FROM bills b JOIN bill_items bi ON b.id = bi.bill_id
followed by the WHERE clause on b (index.js 612-617, 620-632): the cross
product filtered by the join condition and the date filter. -/
def joinRows (db : DB) (conds : List Cond) (params : List Int) :
    List (Bill × BillItem) :=
  (db.bills.flatMap (fun b => db.bill_items.map (fun bi => (b, bi)))).filter
    (fun r => r.1.id == r.2.bill_id && passesFilter conds params r.1)

/-- One entry of the top_products ranking (index.js 620-632). -/
structure TopProduct where
  product_name : String
  total_quantity : Int
  total_revenue : Int
  total_mrp_value : Int
deriving Repr, DecidableEq

/-- The GROUP BY keys: the distinct (name, product_id) pairs occurring in
the joined row set (index.js line 629). -/
def groupKeys (rows : List (Bill × BillItem)) : List (String × Int) :=
  (rows.map (fun r => (r.2.name, r.2.product_id))).dedup

/-- The rows of one group. -/
def groupOf (rows : List (Bill × BillItem)) (k : String × Int) :
    List (Bill × BillItem) :=
  rows.filter (fun r => (r.2.name, r.2.product_id) == k)

/-- The aggregate row of one group: summed quantity, summed revenue
(price times quantity) and summed MRP value (mrp times quantity),
labelled by the product name of the group key (index.js 621-625). -/
def aggRow (rows : List (Bill × BillItem)) (k : String × Int) : TopProduct :=
  let g := groupOf rows k
  { product_name := k.1
    total_quantity := (g.map (fun r => (r.2.quantity : Int))).sum
    total_revenue := (g.map (fun r => r.2.price * r.2.quantity)).sum
    total_mrp_value := (g.map (fun r => r.2.mrp * r.2.quantity)).sum }

/-- Comparison used by ORDER BY total_revenue DESC: a precedes b when the
revenue of b is at most the revenue of a. -/
def revDescLe (a b : TopProduct) : Bool :=
  decide (b.total_revenue ≤ a.total_revenue)

/-- The top-products query (index.js 620-632): group the joined rows,
aggregate each group, order by summed revenue descending, keep 10. -/
def topProductsQuery (db : DB) (conds : List Cond) (params : List Int) :
    List TopProduct :=
  let rows := joinRows db conds params
  (((groupKeys rows).map (aggRow rows)).mergeSort revDescLe).take 10

/-- The JSON body of a GET /api/sales/summary response (index.js 639-642).
The three SUM totals are Option valued because SQL SUM over an empty row
set is NULL and the handler forwards them untouched. -/
structure SummaryOut where
  total_bills : Nat
  total_sales : Option Int
  total_savings : Option Int
  total_mrp : Option Int
  total_items_sold : Int
  top_products : List TopProduct
deriving Repr, DecidableEq

/-- The GET /api/sales/summary handler (index.js 580-647).

The groupBy query parameter is destructured (line 582) and never used.
The bill-level totals query (601-609) runs against the plain bills table
using the alias-stripped filter; it always returns exactly one row, so
the row-missing fallback object on line 634 is dead and the NULL sums
reach the response unchanged.  total_items_sold (637) coalesces a NULL
sum to zero.  top_products is the row list of the third query. -/
def getSalesSummary (db : DB) (startD endD : Option Int)
    (groupBy : Option String) : SummaryOut :=
  let f := buildFilter startD endD
  let conds := f.1
  let params := f.2
  let summaryRows := db.bills.filter (passesFilter (conds.map stripAlias) params)
  { total_bills := summaryRows.length
    total_sales := sqlSum (summaryRows.map Bill.total_amount)
    total_savings := sqlSum (summaryRows.map Bill.total_savings)
    total_mrp := sqlSum (summaryRows.map Bill.total_mrp)
    total_items_sold :=
      (sqlSum ((joinRows db conds params).map (fun r => (r.2.quantity : Int)))).getD 0
    top_products := topProductsQuery db conds params }

/- ===================================================================
   POST /api/bills — the Bill Recorder (index.js 358-417).

   Code shape:
     const client = await pool.connect();
     try {
       BEGIN;
       destructure body; if items missing / not an array / empty: 400 return;
       INSERT INTO bills ... RETURNING *;  billId = row.id;
       for each item: INSERT INTO bill_items ...;
       COMMIT;
       post-commit joined read of the bill;
       201 with the joined row
     } catch { ROLLBACK; 500 with the error message }
     finally { client.release(); }

   The executor below hand-compiles this control flow.  Store failures
   are injected through a schedule saying which statement fails first.
   Writes inside the transaction are buffered and only become part of
   the committed database at COMMIT; ROLLBACK discards the buffer.  The
   executor records the trace of store operations issued (a failing
   statement is still recorded, since it was issued) and the committed
   database snapshot visible to concurrent readers after each operation.
   =================================================================== -/

/-- One line item of the request body. -/
structure BillItemInput where
  product_id : Int
  name : String
  price : Int
  mrp : Int
  quantity : Int
deriving Repr, DecidableEq

/-- The request body of POST /api/bills.  items is none when the field is
missing or is not an array, some l when it is an array with elements l. -/
structure BillRequest where
  items : Option (List BillItemInput)
  total_amount : Int
  total_mrp : Int
  total_savings : Int
  created_by : String
deriving Repr, DecidableEq

/-- Store operations issued by the handler, in order. -/
inductive Op where
  | connect
  | beginTx
  | insertBill (b : Bill)
  | insertItem (it : BillItem)
  | commitTx
  | rollbackTx
  | readBill (id : Nat)
  | release
deriving Repr, DecidableEq

/-- Failure schedule: which store statement fails first (if any) during
one createBill invocation.  itemFailAt is the zero-based index of the
item insert that fails. -/
structure Sched where
  billInsertFails : Bool
  itemFailAt : Option Nat
  commitFails : Bool
  readFails : Bool
  rollbackFails : Bool
deriving Repr, DecidableEq

/-- The schedule on which every store statement succeeds. -/
def noFailures : Sched := ⟨false, none, false, false, false⟩

/-- The schedule on which only the post-commit joined read fails. -/
def readFailSched : Sched := ⟨false, none, false, true, false⟩

/-- Outcome of one createBill invocation: HTTP status of the response
(none when no response was sent because the catch block itself threw),
the final committed database, the trace of store operations issued, and
the committed snapshot visible to readers after each operation. -/
structure ExecResult where
  status : Option Nat
  db : DB
  trace : List Op
  visible : List DB
deriving Repr, DecidableEq

/-- The bills row inserted by the handler: the generated id is the next
value of the bill id sequence and created_at is the server timestamp
(index.js 371-375). -/
def newBill (db : DB) (req : BillRequest) (now : Timestamp) : Bill :=
  ⟨db.nextBillId, req.total_amount, req.total_mrp, req.total_savings,
    req.created_by, now⟩

/-- The bill_items rows built by the insert loop (index.js 380-385): one
row per input item, in input order, each referencing billId, with ids
drawn consecutively from the item id sequence. -/
def mkRows (billId : Nat) (nid : Nat) :
    List BillItemInput → List BillItem
  | [] => []
  | it :: rest =>
    ⟨nid, billId, it.product_id, it.name, it.price, it.mrp, it.quantity⟩ ::
      mkRows billId (nid + 1) rest

/-- Apply a committed transaction: append the bill row and its item rows
and advance the id sequences. -/
def commitDB (db : DB) (b : Bill) (rows : List BillItem) : DB :=
  ⟨db.bills ++ [b], db.bill_items ++ rows, db.nextBillId + 1,
    db.nextItemId + rows.length⟩

/-- Continuation of createBill after all inserts succeeded: COMMIT, the
post-commit joined read, and the response (index.js 387-416). -/
def createBillCommitPhase (db : DB) (_req : BillRequest) (_now : Timestamp)
    (s : Sched) (b : Bill) (rows : List BillItem) : ExecResult :=
  let itemOps := rows.map Op.insertItem
  if s.commitFails then
    -- COMMIT fails: nothing becomes visible; catch does ROLLBACK then 500
    { status := if s.rollbackFails then none else some 500, db := db
      trace := [Op.connect, Op.beginTx, Op.insertBill b] ++ itemOps ++
        [Op.commitTx, Op.rollbackTx, Op.release]
      visible := List.replicate (itemOps.length + 6) db }
  else
    let db2 := commitDB db b rows
    if s.readFails then
      -- the joined read after COMMIT fails: catch issues ROLLBACK (which
      -- has no transaction left to undo) and responds 500, yet the
      -- committed rows persist
      { status := if s.rollbackFails then none else some 500, db := db2
        trace := [Op.connect, Op.beginTx, Op.insertBill b] ++ itemOps ++
          [Op.commitTx, Op.readBill b.id, Op.rollbackTx, Op.release]
        visible := List.replicate (itemOps.length + 3) db ++
          List.replicate 4 db2 }
    else
      { status := some 201, db := db2
        trace := [Op.connect, Op.beginTx, Op.insertBill b] ++ itemOps ++
          [Op.commitTx, Op.readBill b.id, Op.release]
        visible := List.replicate (itemOps.length + 3) db ++
          List.replicate 3 db2 }

/-- The POST /api/bills handler (index.js 358-417), as a function of the
starting committed database, the request, the server timestamp and the
failure schedule.  Every branch releases the client last (the finally
block) and the committed database changes only at a successful COMMIT. -/
def createBill (db : DB) (req : BillRequest) (now : Timestamp) (s : Sched) :
    ExecResult :=
  match req.items with
  | none =>
    -- missing or non-array items: 400 after BEGIN, no write, no COMMIT/ROLLBACK
    { status := some 400, db := db
      trace := [Op.connect, Op.beginTx, Op.release]
      visible := [db, db, db] }
  | some [] =>
    -- empty items array: same 400 path
    { status := some 400, db := db
      trace := [Op.connect, Op.beginTx, Op.release]
      visible := [db, db, db] }
  | some items =>
    let b := newBill db req now
    if s.billInsertFails then
      -- the bill insert fails: catch does ROLLBACK then 500
      { status := if s.rollbackFails then none else some 500, db := db
        trace := [Op.connect, Op.beginTx, Op.insertBill b, Op.rollbackTx,
          Op.release]
        visible := [db, db, db, db, db] }
    else
      match s.itemFailAt with
      | some i =>
        if i < items.length then
          -- item insert number i fails after i successful item inserts
          let attempted := mkRows b.id db.nextItemId (items.take (i + 1))
          { status := if s.rollbackFails then none else some 500, db := db
            trace := [Op.connect, Op.beginTx, Op.insertBill b] ++
              attempted.map Op.insertItem ++ [Op.rollbackTx, Op.release]
            visible := List.replicate (attempted.length + 5) db }
        else
          createBillCommitPhase db req now s b (mkRows b.id db.nextItemId items)
      | none =>
        createBillCommitPhase db req now s b (mkRows b.id db.nextItemId items)

/- ===================================================================
   Helper lemmas.
   =================================================================== -/

theorem passesFilter_stripAlias (conds : List Cond) (params : List Int)
    (b : Bill) :
    passesFilter (conds.map stripAlias) params b = passesFilter conds params b := by
  unfold passesFilter
  rw [List.all_map]
  rfl

theorem passesFilter_stripAlias_fun (conds : List Cond) (params : List Int) :
    passesFilter (conds.map stripAlias) params = passesFilter conds params :=
  funext (passesFilter_stripAlias conds params)

theorem passesFilter_buildFilter (startD endD : Option Int) (b : Bill) :
    passesFilter (buildFilter startD endD).1 (buildFilter startD endD).2 b = true ↔
      (∀ x, startD = some x → x ≤ b.created_at.date) ∧
      (∀ y, endD = some y → b.created_at.date ≤ y) := by
  cases startD <;> cases endD <;>
    simp [buildFilter, passesFilter, evalCond]

theorem count_release_insertItems (rows : List BillItem) :
    (rows.map Op.insertItem).count Op.release = 0 := by
  induction rows with
  | nil => rfl
  | cons r rs ih => simp [List.count_cons, ih]

/- ===================================================================
   Claim theorems.
   =================================================================== -/

/-- C9: for any two getSalesSummary requests identical except for the
groupBy query parameter, evaluated over the same database state, the
responses are identical — groupBy has no effect on any aggregation
branch or on the output. -/
theorem groupBy_no_effect (db : DB) (startD endD : Option Int)
    (g1 g2 : Option String) :
    getSalesSummary db startD endD g1 = getSalesSummary db startD endD g2 := rfl

/-- C5: the date filter of getSalesSummary counts exactly the bills whose
creation date (date only, time of day ignored) lies within the given
bounds — at least start when start is given, at most end when end is
given, both conjoined when both are given, every bill when neither is
given, and a bill dated exactly on a bound passes (the comparisons are
inclusive). -/
theorem salesSummary_date_filter (startD endD : Option Int) (db : DB)
    (b : Bill) (t : Nat) :
    ((getSalesSummary db startD endD none).total_bills =
      (db.bills.filter
        (passesFilter (buildFilter startD endD).1 (buildFilter startD endD).2)).length) ∧
    (passesFilter (buildFilter startD endD).1 (buildFilter startD endD).2 b = true ↔
      (∀ x, startD = some x → x ≤ b.created_at.date) ∧
      (∀ y, endD = some y → b.created_at.date ≤ y)) ∧
    (passesFilter (buildFilter startD endD).1 (buildFilter startD endD).2
        { b with created_at := ⟨b.created_at.date, t⟩ } =
      passesFilter (buildFilter startD endD).1 (buildFilter startD endD).2 b) := by
  refine ⟨?_, passesFilter_buildFilter startD endD b, rfl⟩
  simp [getSalesSummary, passesFilter_stripAlias_fun]

/-- C6: the three aggregate computations of getSalesSummary are
restricted to the same filtered bill set.  The textual alias stripping
applied to the WHERE clause of the bill-level totals query produces
exactly the clause with bare column references, and the stripped filter
selects the same bills as the aliased filter used by the two join
queries; the bill-level count of getSalesSummary therefore counts the
bills selected by the aliased filter. -/
theorem alias_strip_same_bills (startD endD : Option Int) (db : DB) :
    (stripWhereText (renderWhere (buildFilter startD endD).1) =
      renderWhere (((buildFilter startD endD).1).map stripAlias)) ∧
    (db.bills.filter
        (passesFilter (((buildFilter startD endD).1).map stripAlias)
          (buildFilter startD endD).2) =
      db.bills.filter
        (passesFilter (buildFilter startD endD).1 (buildFilter startD endD).2)) ∧
    ((getSalesSummary db startD endD none).total_bills =
      (db.bills.filter
        (passesFilter (buildFilter startD endD).1 (buildFilter startD endD).2)).length) := by
  refine ⟨?_, ?_, ?_⟩
  · cases startD with
    | none =>
      cases endD with
      | none => decide
      | some e =>
        rw [show (buildFilter none (some e)).1
          = [⟨some "b", DateCmp.le, 1⟩] from rfl]
        decide
    | some s =>
      cases endD with
      | none =>
        rw [show (buildFilter (some s) none).1
          = [⟨some "b", DateCmp.ge, 1⟩] from rfl]
        decide
      | some e =>
        rw [show (buildFilter (some s) (some e)).1
          = [⟨some "b", DateCmp.ge, 1⟩, ⟨some "b", DateCmp.le, 2⟩] from rfl]
        decide
  · rw [passesFilter_stripAlias_fun]
  · simp [getSalesSummary, passesFilter_stripAlias_fun]

/-- C8: on every exit path of createBill — success, validation rejection,
store error with rollback, or unexpected error — the pooled connection
checked out at the start of the handler is released exactly once. -/
theorem connection_released_once (db : DB) (req : BillRequest)
    (now : Timestamp) (s : Sched) :
    ((createBill db req now s).trace).count Op.release = 1 := by
  obtain ⟨bf, ifa, cf, rf, rbf⟩ := s
  unfold createBill createBillCommitPhase
  cases req.items with
  | none => simp [List.count_cons]
  | some items =>
    cases items with
    | nil => simp [List.count_cons]
    | cons it rest =>
      cases ifa with
      | none =>
        cases bf <;> cases cf <;> cases rf <;>
          simp [List.count_cons, List.count_append, count_release_insertItems]
      | some i =>
        by_cases hi : i < rest.length + 1 <;>
          cases bf <;> cases cf <;> cases rf <;>
            simp [hi, List.count_cons, List.count_append,
              count_release_insertItems]

/-- A fixed server timestamp used in concrete evaluations. -/
def now0 : Timestamp := ⟨20000, 0⟩

/-- A request whose items field is an empty array. -/
def emptyItemsReq : BillRequest := ⟨some [], 25, 30, 5, "u1"⟩

/-- A request whose items field is missing or not an array. -/
def noItemsReq : BillRequest := ⟨none, 25, 30, 5, "u1"⟩

/-- Store operations that write rows. -/
def isWriteOp : Op → Bool
  | Op.insertBill _ => true
  | Op.insertItem _ => true
  | _ => false

/-- C2: on a request with an empty (or missing) items field the handler
responds 400 and performs zero store writes, but the transaction is
opened before the validation runs: the trace contains BEGIN, issued on
the pooled connection before the items check (index.js lines 359-368),
contradicting the specified never-open-the-transaction behaviour. -/
theorem validation_after_transaction_open :
    ((createBill emptyDB emptyItemsReq now0 noFailures).status = some 400 ∧
      (createBill emptyDB emptyItemsReq now0 noFailures).db = emptyDB ∧
      (createBill emptyDB emptyItemsReq now0 noFailures).trace.countP isWriteOp = 0 ∧
      Op.beginTx ∈ (createBill emptyDB emptyItemsReq now0 noFailures).trace) ∧
    ((createBill emptyDB noItemsReq now0 noFailures).status = some 400 ∧
      (createBill emptyDB noItemsReq now0 noFailures).db = emptyDB ∧
      (createBill emptyDB noItemsReq now0 noFailures).trace.countP isWriteOp = 0 ∧
      Op.beginTx ∈ (createBill emptyDB noItemsReq now0 noFailures).trace) := by
  decide

/-- When no bill passes the filter, the joined row set of the two item
queries is empty. -/
theorem joinRows_nil_of_no_bills (db : DB) (conds : List Cond)
    (params : List Int)
    (h : db.bills.filter (passesFilter conds params) = []) :
    joinRows db conds params = [] := by
  unfold joinRows
  rw [List.filter_eq_nil_iff] at h ⊢
  intro r hr
  rw [List.mem_flatMap] at hr
  obtain ⟨b, hb, hr⟩ := hr
  rw [List.mem_map] at hr
  obtain ⟨bi, _, rfl⟩ := hr
  have := h b hb
  simp [this]

/-- C3 (amended): over a dataset with zero bills matching the filter,
getSalesSummary returns total_bills zero, total_items_sold zero and
top_products empty, while the three SUM totals (total_sales,
total_savings, total_mrp) are SQL NULL — absent, not zero — because the
bill-level aggregate query always returns exactly one row, so the
zero-defaults fallback object never applies and the NULL sums reach the
response unchanged. -/
theorem summary_empty_dataset (db : DB) (startD endD : Option Int)
    (g : Option String)
    (h : db.bills.filter
      (passesFilter (buildFilter startD endD).1 (buildFilter startD endD).2) = []) :
    (getSalesSummary db startD endD g).total_bills = 0 ∧
    (getSalesSummary db startD endD g).total_sales = none ∧
    (getSalesSummary db startD endD g).total_savings = none ∧
    (getSalesSummary db startD endD g).total_mrp = none ∧
    (getSalesSummary db startD endD g).total_items_sold = 0 ∧
    (getSalesSummary db startD endD g).top_products = [] := by
  have hs : db.bills.filter
      (passesFilter (((buildFilter startD endD).1).map stripAlias)
        (buildFilter startD endD).2) = [] := by
    rw [passesFilter_stripAlias_fun]
    exact h
  have hj := joinRows_nil_of_no_bills db (buildFilter startD endD).1
    (buildFilter startD endD).2 h
  simp [getSalesSummary, hs, hj, sqlSum, topProductsQuery, groupKeys,
    List.dedup_nil]

/-- Witness for C3 (amended): the empty dataset matches the hypothesis
and exhibits the NULL total and the empty ranking. -/
theorem summary_empty_dataset_witness :
    (getSalesSummary emptyDB none none none).total_sales = none ∧
    (getSalesSummary emptyDB none none none).top_products = [] := by
  have h := summary_empty_dataset emptyDB none none none rfl
  exact ⟨h.2.1, h.2.2.2.2.2⟩

/-- C3 counterexample: over the empty dataset the response does not have
all four bill-level totals equal to zero — total_sales is NULL (absent),
not zero. -/
theorem summary_empty_claim_false :
    ¬ ((getSalesSummary emptyDB none none none).total_bills = 0 ∧
       (getSalesSummary emptyDB none none none).total_sales = some 0 ∧
       (getSalesSummary emptyDB none none none).total_savings = some 0 ∧
       (getSalesSummary emptyDB none none none).total_mrp = some 0 ∧
       (getSalesSummary emptyDB none none none).total_items_sold = 0 ∧
       (getSalesSummary emptyDB none none none).top_products = []) := by
  intro h
  have hx : (getSalesSummary emptyDB none none none).total_sales = none := rfl
  rw [hx] at h
  exact Option.noConfusion h.2.1

theorem revDescLe_trans (a b c : TopProduct) :
    revDescLe a b → revDescLe b c → revDescLe a c := by
  simp only [revDescLe, decide_eq_true_eq]
  omega

theorem revDescLe_total (a b : TopProduct) :
    revDescLe a b || revDescLe b a := by
  simp only [revDescLe, Bool.or_eq_true, decide_eq_true_eq]
  omega

/-- C4: top_products contains at most 10 entries, is sorted by summed
revenue descending, and each entry is the aggregate of one group of the
joined rows keyed by product name and product id: its total_quantity is
the summed quantity, its total_revenue the summed price times quantity,
and its total_mrp_value the summed mrp times quantity of that group. -/
theorem top_products_spec (db : DB) (startD endD : Option Int) :
    ((getSalesSummary db startD endD none).top_products).length ≤ 10 ∧
    ((getSalesSummary db startD endD none).top_products).Pairwise
      (fun a b => b.total_revenue ≤ a.total_revenue) ∧
    ∀ p ∈ (getSalesSummary db startD endD none).top_products,
      ∃ k, k ∈ groupKeys
          (joinRows db (buildFilter startD endD).1 (buildFilter startD endD).2) ∧
        p.product_name = k.1 ∧
        p.total_quantity =
          ((groupOf (joinRows db (buildFilter startD endD).1
              (buildFilter startD endD).2) k).map
            (fun r => (r.2.quantity : Int))).sum ∧
        p.total_revenue =
          ((groupOf (joinRows db (buildFilter startD endD).1
              (buildFilter startD endD).2) k).map
            (fun r => r.2.price * r.2.quantity)).sum ∧
        p.total_mrp_value =
          ((groupOf (joinRows db (buildFilter startD endD).1
              (buildFilter startD endD).2) k).map
            (fun r => r.2.mrp * r.2.quantity)).sum := by
  have htp : (getSalesSummary db startD endD none).top_products =
      topProductsQuery db (buildFilter startD endD).1
        (buildFilter startD endD).2 := rfl
  rw [htp]
  unfold topProductsQuery
  refine ⟨?_, ?_, ?_⟩
  · rw [List.length_take]
    exact Nat.min_le_left _ _
  · have hs := List.sorted_mergeSort revDescLe_trans
      revDescLe_total
      ((groupKeys (joinRows db (buildFilter startD endD).1
          (buildFilter startD endD).2)).map
        (aggRow (joinRows db (buildFilter startD endD).1
          (buildFilter startD endD).2)))
    have hst := List.Pairwise.sublist (List.take_sublist 10 _) hs
    exact hst.imp (fun h => by
      simpa only [revDescLe, decide_eq_true_eq] using h)
  · intro p hp
    have hp1 : p ∈ ((groupKeys (joinRows db (buildFilter startD endD).1
        (buildFilter startD endD).2)).map
          (aggRow (joinRows db (buildFilter startD endD).1
            (buildFilter startD endD).2))).mergeSort revDescLe :=
      List.take_subset 10 _ hp
    rw [List.mem_mergeSort, List.mem_map] at hp1
    obtain ⟨k, hk, rfl⟩ := hp1
    exact ⟨k, hk, rfl, rfl, rfl, rfl⟩

theorem mkRows_length (bid nid : Nat) (items : List BillItemInput) :
    (mkRows bid nid items).length = items.length := by
  induction items generalizing nid with
  | nil => rfl
  | cons it rest ih => simp [mkRows, ih]

theorem mkRows_bill_id (bid nid : Nat) (items : List BillItemInput) :
    ∀ r ∈ mkRows bid nid items, r.bill_id = bid := by
  induction items generalizing nid with
  | nil => intro r hr; cases hr
  | cons it rest ih =>
    intro r hr
    rw [mkRows, List.mem_cons] at hr
    rcases hr with rfl | hr
    · rfl
    · exact ih (nid + 1) r hr

theorem mkRows_get (bid : Nat) (items : List BillItemInput) :
    ∀ (nid i : Nat) (h : i < items.length),
      (mkRows bid nid items).get ⟨i, by rw [mkRows_length]; exact h⟩ =
        ⟨nid + i, bid, (items.get ⟨i, h⟩).product_id, (items.get ⟨i, h⟩).name,
          (items.get ⟨i, h⟩).price, (items.get ⟨i, h⟩).mrp,
          (items.get ⟨i, h⟩).quantity⟩ := by
  induction items with
  | nil => intro nid i h; exact absurd h (Nat.not_lt_zero i)
  | cons it rest ih =>
    intro nid i h
    cases i with
    | zero => simp [mkRows]
    | succ j =>
      have hj : j < rest.length := Nat.lt_of_succ_lt_succ h
      have hrec := ih (nid + 1) j hj
      simp only [mkRows, List.get_cons_succ]
      rw [hrec]
      have harith : nid + 1 + j = nid + (j + 1) := by omega
      rw [harith]

/-- When no statement of the transaction fails, createBill commits the
bill row and all the item rows. -/
theorem createBill_success_db (db : DB) (req : BillRequest) (now : Timestamp)
    (s : Sched) (items : List BillItemInput)
    (hit : req.items = some items) (hne : items ≠ [])
    (hbf : s.billInsertFails = false)
    (hifa : ∀ i, s.itemFailAt = some i → items.length ≤ i)
    (hcf : s.commitFails = false) :
    (createBill db req now s).db =
      commitDB db (newBill db req now)
        (mkRows db.nextBillId db.nextItemId items) := by
  obtain ⟨bf, ifa, cf, rf, rbf⟩ := s
  simp only at hbf hcf hifa
  subst hbf hcf
  cases items with
  | nil => exact absurd rfl hne
  | cons it rest =>
    simp only [createBill, createBillCommitPhase, hit]
    cases ifa with
    | none => cases rf <;> rfl
    | some i =>
      have hle := hifa i rfl
      simp only [List.length_cons] at hle
      have hni : ¬ (i < rest.length + 1) := by omega
      simp only [List.length_cons]
      rw [if_neg hni]
      cases rf <;> rfl

/-- When the bill insert, an item insert, or COMMIT fails, the committed
database is unchanged. -/
theorem createBill_failure_db (db : DB) (req : BillRequest) (now : Timestamp)
    (s : Sched) (items : List BillItemInput)
    (hit : req.items = some items) (hne : items ≠ [])
    (hfail : s.billInsertFails = true ∨
      (∃ i, s.itemFailAt = some i ∧ i < items.length) ∨ s.commitFails = true) :
    (createBill db req now s).db = db := by
  obtain ⟨bf, ifa, cf, rf, rbf⟩ := s
  cases items with
  | nil => exact absurd rfl hne
  | cons it rest =>
    simp only [createBill, createBillCommitPhase, hit]
    cases bf with
    | true => rfl
    | false =>
      cases ifa with
      | none =>
        rcases hfail with h | ⟨i, hi, _⟩ | h
        · exact Bool.noConfusion h
        · exact Option.noConfusion hi
        · simp only at h
          subst h
          rfl
      | some i =>
        by_cases hlt : i < rest.length + 1
        · simp only [List.length_cons]
          rw [if_pos hlt]
          rfl
        · simp only [List.length_cons]
          rw [if_neg hlt]
          rcases hfail with h | ⟨i2, hi2, hlt2⟩ | h
          · exact Bool.noConfusion h
          · simp only [Option.some.injEq] at hi2
            subst hi2
            simp only [List.length_cons] at hlt2
            exact absurd hlt2 hlt
          · simp only at h
            subst h
            rfl

/-- Every committed snapshot visible during a createBill invocation is
either the starting database or the database with the whole bill
committed: no intermediate state is observable. -/
theorem createBill_visible (db : DB) (req : BillRequest) (now : Timestamp)
    (s : Sched) (items : List BillItemInput)
    (hit : req.items = some items) :
    ∀ v ∈ (createBill db req now s).visible,
      v = db ∨ v = commitDB db (newBill db req now)
        (mkRows db.nextBillId db.nextItemId items) := by
  obtain ⟨bf, ifa, cf, rf, rbf⟩ := s
  cases items with
  | nil =>
    intro v hv
    simp only [createBill, hit] at hv
    exact Or.inl (by simpa using hv)
  | cons it rest =>
    intro v hv
    simp only [createBill, createBillCommitPhase, hit] at hv
    cases bf with
    | true =>
      exact Or.inl (by simpa using hv)
    | false =>
      cases ifa with
      | none =>
        cases cf with
        | true =>
          exact Or.inl (List.eq_of_mem_replicate hv)
        | false =>
          cases rf with
          | true =>
            rcases List.mem_append.mp hv with hv2 | hv2
            · exact Or.inl (List.eq_of_mem_replicate hv2)
            · exact Or.inr (List.eq_of_mem_replicate hv2)
          | false =>
            rcases List.mem_append.mp hv with hv2 | hv2
            · exact Or.inl (List.eq_of_mem_replicate hv2)
            · exact Or.inr (List.eq_of_mem_replicate hv2)
      | some i =>
        by_cases hlt : i < rest.length + 1
        · simp only [List.length_cons, hlt, if_true] at hv
          exact Or.inl (List.eq_of_mem_replicate hv)
        · simp only [List.length_cons, hlt, if_false] at hv
          cases cf with
          | true =>
            exact Or.inl (List.eq_of_mem_replicate hv)
          | false =>
            cases rf with
            | true =>
              rcases List.mem_append.mp hv with hv2 | hv2
              · exact Or.inl (List.eq_of_mem_replicate hv2)
              · exact Or.inr (List.eq_of_mem_replicate hv2)
            | false =>
              rcases List.mem_append.mp hv with hv2 | hv2
              · exact Or.inl (List.eq_of_mem_replicate hv2)
              · exact Or.inr (List.eq_of_mem_replicate hv2)

/-- C1: for every valid input (request whose items field is a non-empty
array), createBill persists exactly one Bill row and exactly N BillItem
rows (N the number of items) when no statement fails; on any failure
during the bill or item inserts (or at COMMIT) the entire transaction is
rolled back and the committed database is unchanged — zero new rows of
either kind; and no intermediate state (a bill without all its items) is
ever observable: every reader-visible snapshot is the initial database
or the fully committed one. -/
theorem createBill_atomicity (db : DB) (req : BillRequest) (now : Timestamp)
    (s : Sched) (items : List BillItemInput)
    (hit : req.items = some items) (hne : items ≠ []) :
    ((s.billInsertFails = false ∧
        (∀ i, s.itemFailAt = some i → items.length ≤ i) ∧
        s.commitFails = false) →
      (createBill db req now s).db.bills = db.bills ++ [newBill db req now] ∧
      (createBill db req now s).db.bill_items =
        db.bill_items ++ mkRows db.nextBillId db.nextItemId items ∧
      (createBill db req now s).db.bills.length = db.bills.length + 1 ∧
      (createBill db req now s).db.bill_items.length =
        db.bill_items.length + items.length) ∧
    ((s.billInsertFails = true ∨
        (∃ i, s.itemFailAt = some i ∧ i < items.length) ∨
        s.commitFails = true) →
      (createBill db req now s).db = db) ∧
    (∀ v ∈ (createBill db req now s).visible,
      v = db ∨ v = commitDB db (newBill db req now)
        (mkRows db.nextBillId db.nextItemId items)) := by
  refine ⟨?_,
    fun hfail => createBill_failure_db db req now s items hit hne hfail,
    createBill_visible db req now s items hit⟩
  rintro ⟨hbf, hifa, hcf⟩
  have hdb := createBill_success_db db req now s items hit hne hbf hifa hcf
  rw [hdb]
  refine ⟨rfl, rfl, ?_, ?_⟩
  · simp [commitDB]
  · simp [commitDB, mkRows_length]

/-- A concrete line item used by the witnesses. -/
def item0 : BillItemInput := ⟨7, "Pen", 10, 12, 2⟩

/-- A concrete valid request with one item. -/
def req0 : BillRequest := ⟨some [item0], 25, 30, 5, "u1"⟩

/-- Witness for C1: on the empty database, a one-item request with no
induced failures commits exactly the new bill row. -/
theorem createBill_atomicity_witness :
    (createBill emptyDB req0 now0 noFailures).db.bills
      = emptyDB.bills ++ [newBill emptyDB req0 now0] :=
  ((createBill_atomicity emptyDB req0 now0 noFailures [item0] rfl
    (by decide)).1 ⟨rfl, fun _ hi => Option.noConfusion hi, rfl⟩).1

/-- C7: with a valid input and no induced failures, the trace of store
operations is exactly BEGIN, the single bill insert, then one item
insert per input item in input order — the bill insert strictly
preceding every item insert — then COMMIT, the post-commit read and the
release; every inserted item row references the generated bill id, and
the row at position i carries the fields of input item i with ids drawn
consecutively. -/
theorem createBill_insert_order (db : DB) (req : BillRequest)
    (now : Timestamp) (items : List BillItemInput)
    (hit : req.items = some items) (hne : items ≠ []) :
    (createBill db req now noFailures).trace =
      [Op.connect, Op.beginTx, Op.insertBill (newBill db req now)] ++
        (mkRows db.nextBillId db.nextItemId items).map Op.insertItem ++
        [Op.commitTx, Op.readBill db.nextBillId, Op.release] ∧
    (∀ r ∈ mkRows db.nextBillId db.nextItemId items,
      r.bill_id = db.nextBillId) ∧
    (mkRows db.nextBillId db.nextItemId items).length = items.length ∧
    (∀ (i : Nat) (h : i < items.length),
      (mkRows db.nextBillId db.nextItemId items).get
          ⟨i, by rw [mkRows_length]; exact h⟩ =
        ⟨db.nextItemId + i, db.nextBillId,
          (items.get ⟨i, h⟩).product_id, (items.get ⟨i, h⟩).name,
          (items.get ⟨i, h⟩).price, (items.get ⟨i, h⟩).mrp,
          (items.get ⟨i, h⟩).quantity⟩) := by
  refine ⟨?_, mkRows_bill_id _ _ _, mkRows_length _ _ _,
    fun i h => mkRows_get _ _ _ i h⟩
  cases items with
  | nil => exact absurd rfl hne
  | cons it rest =>
    simp only [createBill, createBillCommitPhase, hit]
    rfl

/-- Witness for C7: the concrete one-item request produces exactly the
expected operation sequence. -/
theorem createBill_insert_order_witness :
    (createBill emptyDB req0 now0 noFailures).trace =
      [Op.connect, Op.beginTx, Op.insertBill (newBill emptyDB req0 now0)] ++
        (mkRows emptyDB.nextBillId emptyDB.nextItemId [item0]).map
          Op.insertItem ++
        [Op.commitTx, Op.readBill emptyDB.nextBillId, Op.release] :=
  (createBill_insert_order emptyDB req0 now0 [item0] rfl (by decide)).1

/-- C10: when the post-commit joined read fails after COMMIT succeeded,
the handler responds 500 — the catch branch issues a ROLLBACK that has
no transaction left to undo — while the bill and all its items remain
durably persisted; a 500 response from createBill therefore does not
imply that no bill was created. -/
theorem post_commit_read_failure (db : DB) (req : BillRequest)
    (now : Timestamp) (items : List BillItemInput)
    (hit : req.items = some items) (hne : items ≠ []) :
    (createBill db req now readFailSched).status = some 500 ∧
    (createBill db req now readFailSched).db.bills
      = db.bills ++ [newBill db req now] ∧
    (createBill db req now readFailSched).db.bill_items
      = db.bill_items ++ mkRows db.nextBillId db.nextItemId items ∧
    Op.rollbackTx ∈ (createBill db req now readFailSched).trace := by
  cases items with
  | nil => exact absurd rfl hne
  | cons it rest =>
    simp only [createBill, createBillCommitPhase, hit]
    refine ⟨rfl, rfl, rfl, ?_⟩
    simp [readFailSched, List.mem_append]

/-- Witness for C10: the concrete one-item request with a failing
post-commit read yields a 500 response while the bill row is committed. -/
theorem post_commit_read_failure_witness :
    (createBill emptyDB req0 now0 readFailSched).status = some 500 ∧
    (createBill emptyDB req0 now0 readFailSched).db.bills
      = emptyDB.bills ++ [newBill emptyDB req0 now0] :=
  ⟨(post_commit_read_failure emptyDB req0 now0 [item0] rfl (by decide)).1,
    (post_commit_read_failure emptyDB req0 now0 [item0] rfl (by decide)).2.1⟩

end BillGen
